import Mathlib

/-!
Verification development for the timezone agent (src/index.ts).

The file shallowly embeds the request-construction / response-normalization
pipeline of the agent: URL and query-string assembly (buildTimeApiUrl),
header merging (mergeHeaders), the transport wrapper (performTimeApiRequest),
HTTP-status classification and JSON decoding (requestTimeApiJson), the
per-entrypoint output normalization (createTimeResponse and the sixteen
registered handlers), and a concrete executable model of the ambient
JSON.parse builtin (jsonParse).

Conventions of the embedding:
- JavaScript runtime values are modelled by the inductive type JsValue;
  JS objects are association lists in insertion order (property lookup
  takes the last binding with a given key, matching the fact that a later
  duplicate key in a literal or in JSON.parse overwrites an earlier one).
- The network is abstracted as a FetchOutcome parameter: either the fetch
  call rejected with a reason string, or a response with a status code was
  obtained whose body read either yielded text or failed.
- Exceptions are modelled by Except over the inductive type Failure, whose
  constructors record the construction site of the thrown Error together
  with the exact message string the code builds.  The constructors
  typeError and unhandled model runtime exceptions that are not built by
  the code itself (property access on null/undefined, and a rejected
  response.text() promise, respectively).
- Strings are treated as sequences of characters; the UTF-16 code-unit
  granularity of JavaScript strings coincides with this model on all the
  material inputs (the claims never involve astral-plane characters).
-/

/-- Model of a JavaScript runtime value (the possible results of
JSON.parse together with the undefined value). -/
inductive JsValue where
  | undefined : JsValue
  | null : JsValue
  | bool (b : Bool) : JsValue
  | num (n : Rat) : JsValue
  | str (s : String) : JsValue
  | arr (elems : List JsValue) : JsValue
  | obj (fields : List (String × JsValue)) : JsValue
deriving Repr

/-- JS property read on an object: the last binding of the key wins
(objects materialized from literals or JSON.parse keep the last duplicate);
a missing property and a non-object receiver read as undefined.  Callers in
the embedded code only use this after the source guarded the receiver
against null/undefined. -/
def getProp (v : JsValue) (k : String) : JsValue :=
  match v with
  | .obj fields =>
    match fields.reverse.find? (fun p => p.1 == k) with
    | some p => p.2
    | none => .undefined
  | _ => .undefined

/-- JS truthiness, restricted to the value shapes of JsValue. -/
def truthy (v : JsValue) : Bool :=
  match v with
  | .undefined => false
  | .null => false
  | .bool b => b
  | .num n => !(n == 0)
  | .str s => !(s == "")
  | .arr _ => true
  | .obj _ => true

/-- Model of the JS test `typeof v === "object"` (true for null, arrays
and plain objects). -/
def typeofIsObject (v : JsValue) : Bool :=
  match v with
  | .null => true
  | .arr _ => true
  | .obj _ => true
  | _ => false

/-- Model of the JS `"k" in v` test for the object shapes reachable in the
guarded branches of the code (prototype-chain lookups play no role for the
property names used by the agent). -/
def hasProp (v : JsValue) (k : String) : Bool :=
  match v with
  | .obj fields => fields.any (fun p => p.1 == k)
  | _ => false

/-- True exactly for the values the JS nullish-coalescing operator skips. -/
def isNullish (v : JsValue) : Bool :=
  match v with
  | .undefined => true
  | .null => true
  | _ => false

/-- Model of `a ?? b`. -/
def jsCoalesce (a b : JsValue) : JsValue :=
  if isNullish a then b else a

/-- An optional caller-supplied string seen as a JS value (absent maps to
undefined). -/
def optToJs (o : Option String) : JsValue :=
  match o with
  | some s => .str s
  | none => .undefined

/-- Whether a JsValue is a number (the JS test `typeof v === "number"`). -/
def isNumber (v : JsValue) : Bool :=
  match v with
  | .num _ => true
  | _ => false

/-- Own enumerable properties produced by a JS object spread `...v`:
objects contribute their fields, arrays and strings contribute indexed
entries, primitives and null contribute nothing. -/
def jsSpread (v : JsValue) : List (String × JsValue) :=
  match v with
  | .obj fields => fields
  | .arr elems => elems.enum.map (fun p => (toString p.1, p.2))
  | .str s => s.data.enum.map (fun p => (toString p.1, JsValue.str (String.mk [p.2])))
  | _ => []

/-- The JS `.length` read used by the available-timezones handler, on a
receiver already guarded against null/undefined: arrays and strings expose
their length, objects expose a literal length property if any, and other
primitives read as undefined. -/
def jsLength (v : JsValue) : JsValue :=
  match v with
  | .arr elems => .num elems.length
  | .str s => .num s.length
  | .obj _ => getProp v "length"
  | _ => .undefined

/-- Model of String.prototype.trim (restricted to the ASCII whitespace
that occurs in the material inputs). -/
def jsTrim (s : String) : String :=
  String.mk (((s.data.dropWhile Char.isWhitespace).reverse.dropWhile Char.isWhitespace).reverse)

/-- Model of the JS number-to-string conversion, for the numeric values the
agent actually stringifies (integral query parameters and header values);
non-integral rationals are rendered as a fraction, a representation no
claim depends on. -/
def ratToJsString (q : Rat) : String :=
  if q.den = 1 then toString q.num else toString q.num ++ "/" ++ toString q.den

/-- truncateBodyPreview from src/index.ts: a body at most limit characters
long is returned unchanged, a longer one is cut to its first limit
characters with an ellipsis appended (the call sites always use the
default limit 500, which the embedding passes explicitly). -/
def truncateBodyPreview (body : String) (limit : Nat) : String :=
  if body.length ≤ limit then body
  else String.mk (body.data.take limit) ++ "…"

/-- Replacement-style insertion into an association list, modelling both
URLSearchParams.set and Headers.set: the first binding of the key is
replaced in place, any later duplicates of the key are removed, and a
missing key is appended at the end. -/
def assocSet : List (String × String) → String → String → List (String × String)
  | [], key, value => [(key, value)]
  | p :: rest, key, value =>
    if p.1 == key then
      (key, value) :: rest.filter (fun q => q.1 != key)
    else
      p :: assocSet rest key value

/-- Uppercase hexadecimal digit. -/
def hexDigit (d : Nat) : Char :=
  if d < 10 then Char.ofNat (48 + d) else Char.ofNat (55 + d)

/-- Percent-encoding of one byte. -/
def percentByte (n : Nat) : String :=
  "%" ++ String.mk [hexDigit (n / 16), hexDigit (n % 16)]

/-- Whether a byte is left intact by application/x-www-form-urlencoded
serialization (ASCII alphanumerics and * - . _). -/
def formUnreserved (n : Nat) : Bool :=
  (48 ≤ n && n ≤ 57) || (65 ≤ n && n ≤ 90) || (97 ≤ n && n ≤ 122) ||
    n == 42 || n == 45 || n == 46 || n == 95

/-- application/x-www-form-urlencoded escaping of one byte. -/
def formEncodeByte (n : Nat) : String :=
  if formUnreserved n then String.mk [Char.ofNat n]
  else if n == 32 then "+"
  else percentByte n

/-- The UTF-8 bytes of one character, as natural numbers. -/
def utf8Bytes (c : Char) : List Nat :=
  let n := c.toNat
  if n < 128 then [n]
  else if n < 2048 then [192 + n / 64, 128 + n % 64]
  else if n < 65536 then [224 + n / 4096, 128 + (n / 64) % 64, 128 + n % 64]
  else [240 + n / 262144, 128 + (n / 4096) % 64, 128 + (n / 64) % 64, 128 + n % 64]

/-- The UTF-8 byte sequence of a string. -/
def strUtf8 (s : String) : List Nat :=
  s.data.foldr (fun c acc => utf8Bytes c ++ acc) []

/-- application/x-www-form-urlencoded escaping of a string (the
serialization URLSearchParams applies to each key and value). -/
def formEncode (s : String) : String :=
  String.join ((strUtf8 s).map formEncodeByte)

/-- Whether a byte is left intact by encodeURIComponent. -/
def uriComponentUnreserved (n : Nat) : Bool :=
  (48 ≤ n && n ≤ 57) || (65 ≤ n && n ≤ 90) || (97 ≤ n && n ≤ 122) ||
    n == 45 || n == 95 || n == 46 || n == 33 || n == 126 || n == 42 ||
    n == 39 || n == 40 || n == 41

/-- Model of the encodeURIComponent builtin used to embed a date into a
path segment. -/
def encodeURIComponentModel (s : String) : String :=
  String.join ((strUtf8 s).map (fun n =>
    if uriComponentUnreserved n then String.mk [Char.ofNat n] else percentByte n))

/-- The fixed upstream origin TIME_API_BASE_URL. -/
def TIME_API_BASE_URL : String := "https://timeapi.io"

/-- A resolved URL as the agent constructs it: all handler paths are
absolute paths against the fixed base origin and carry an ordered list of
search parameters. -/
structure TimeUrl where
  path : String
  params : List (String × String)
deriving Repr

/-- The string form of a built URL (URL.prototype.toString for the URLs
the agent constructs: origin, path, and the form-encoded query). -/
def urlToString (u : TimeUrl) : String :=
  TIME_API_BASE_URL ++ u.path ++
    (if u.params.isEmpty then ""
     else "?" ++ String.intercalate "&"
       (u.params.map (fun p => formEncode p.1 ++ "=" ++ formEncode p.2)))

/-- A primitive query value as typed by buildTimeApiUrl
(string | number | boolean; the undefined case is the surrounding
Option). -/
inductive QueryValue where
  | str (s : String) : QueryValue
  | num (n : Rat) : QueryValue
  | bool (b : Bool) : QueryValue
deriving Repr

/-- The String(value) conversion buildTimeApiUrl applies to a defined
query value. -/
def queryValueToString (v : QueryValue) : String :=
  match v with
  | .str s => s
  | .num n => ratToJsString n
  | .bool b => if b then "true" else "false"

/-- One Object.entries step of buildTimeApiUrl: an undefined value is
skipped, a defined one is set (replacing any existing binding). -/
def applyQueryEntry (ps : List (String × String)) (e : String × Option QueryValue) :
    List (String × String) :=
  match e.2 with
  | none => ps
  | some v => assocSet ps e.1 (queryValueToString v)

/-- buildTimeApiUrl from src/index.ts: resolves the path against the fixed
base origin and walks the entries of the optional query record in order,
skipping undefined values and setting every other value in stringified
form.  The query record is modelled as its Object.entries list. -/
def buildTimeApiUrl (path : String)
    (query : Option (List (String × Option QueryValue))) : TimeUrl :=
  { path := path,
    params :=
      match query with
      | none => []
      | some q => q.foldl applyQueryEntry [] }

/-- A header value as allowed in the record form of the extra-headers
argument (string | number | boolean | null | undefined | string[]). -/
inductive HeaderValue where
  | str (s : String) : HeaderValue
  | num (n : Rat) : HeaderValue
  | bool (b : Bool) : HeaderValue
  | null : HeaderValue
  | undefined : HeaderValue
  | arr (elems : List String) : HeaderValue
deriving Repr

/-- The three caller-supplied shapes of the extra-headers argument:
an existing Headers object (modelled as its already normalized entry
list), an ordered sequence of pairs, or a record of flexible values. -/
inductive HeadersInitNormalized where
  | headers (entries : List (String × String)) : HeadersInitNormalized
  | pairs (entries : List (String × String)) : HeadersInitNormalized
  | record (entries : List (String × HeaderValue)) : HeadersInitNormalized
deriving Repr

/-- Lowercasing of a header name (the names in play are ASCII, where this
agrees with the Headers normalization). -/
def lowerName (s : String) : String := String.mk (s.data.map Char.toLower)

/-- Headers.set: header names are case-insensitive, so the stored name is
lowercased; setting replaces any existing binding of the name. -/
def headersSet (hs : List (String × String)) (name value : String) :
    List (String × String) :=
  assocSet hs (lowerName name) value

/-- Case-insensitive header lookup (Headers.get). -/
def headersGet (hs : List (String × String)) (name : String) : Option String :=
  (hs.find? (fun p => p.1 == lowerName name)).map (fun p => p.2)

/-- mergeHeaders from src/index.ts: absent extra headers leave the base
unchanged; a Headers instance or a pair sequence is folded entry by entry
with Headers.set; a record skips null/undefined values, joins array values
with a comma-space separator, stringifies every other value, and sets the
result.  Returns the (functionally) mutated base set. -/
def mergeHeaders (base : List (String × String))
    (extra : Option HeadersInitNormalized) : List (String × String) :=
  match extra with
  | none => base
  | some (.headers entries) =>
    entries.foldl (fun b kv => headersSet b kv.1 kv.2) base
  | some (.pairs entries) =>
    entries.foldl (fun b kv => headersSet b kv.1 kv.2) base
  | some (.record entries) =>
    entries.foldl (fun b kv =>
      match kv.2 with
      | .undefined => b
      | .null => b
      | .arr elems => headersSet b kv.1 (String.intercalate ", " elems)
      | .str s => headersSet b kv.1 s
      | .num n => headersSet b kv.1 (ratToJsString n)
      | .bool bb => headersSet b kv.1 (if bb then "true" else "false")) base

/-- The observable outcome of the abstracted fetch call: either the call
rejected before a response was obtained, or a response with a status code
arrived and reading its body as text either produced a string or failed. -/
inductive FetchOutcome where
  | failed (reason : String) : FetchOutcome
  | responded (status : Nat) (bodyRead : Except String String) : FetchOutcome
deriving Repr

/-- A raised JS exception, tagged by its construction site.  The first
four constructors are the classified failures the code builds itself
(network, HTTP status, empty body, JSON parse), each carrying the exact
message string the code formats.  typeError models the runtime TypeError
raised by a property read on null/undefined, and unhandled models a
foreign exception that propagates uncaught (the rejection of
response.text()). -/
inductive Failure where
  | networkFailure (message : String) : Failure
  | httpStatusFailure (message : String) : Failure
  | emptyBodyFailure (message : String) : Failure
  | jsonParseFailure (message : String) : Failure
  | typeError (message : String) : Failure
  | unhandled (message : String) : Failure
deriving Repr, DecidableEq

/-- Whether a failure is one of the four classified kinds of the error
taxonomy (built and labelled by the code itself). -/
def Failure.isClassified : Failure → Bool
  | .networkFailure _ => true
  | .httpStatusFailure _ => true
  | .emptyBodyFailure _ => true
  | .jsonParseFailure _ => true
  | .typeError _ => false
  | .unhandled _ => false

/-- The Response.ok flag: status in the inclusive range 200-299. -/
def responseOk (status : Nat) : Bool :=
  200 ≤ status && status ≤ 299

/-- performTimeApiRequest from src/index.ts, over the abstracted fetch
outcome.  A rejected fetch is rethrown as the labelled network-failure
Error; an obtained response has its body read as text, and a failing body
read propagates uncaught (the code does not guard the response.text()
await).  The header merge the function performs feeds only the abstracted
fetch call and is therefore not part of the observable result. -/
def performTimeApiRequest (label : String) (o : FetchOutcome) :
    Except Failure (Nat × String) :=
  match o with
  | .failed reason =>
    .error (.networkFailure ("[" ++ label ++ "] network request failed: " ++ reason))
  | .responded status bodyRead =>
    match bodyRead with
    | .error e => .error (.unhandled e)
    | .ok bodyText => .ok (status, bodyText)

/-- requestTimeApiJson from src/index.ts, parameterized by the ambient
JSON.parse builtin (the parse argument).  A non-ok status raises the
HTTP-status failure built from the label, the status and a body preview
(the empty-body marker for an empty body); an ok status has its body
trimmed, an empty trimmed body raises the empty-body failure, and a parse
failure on the trimmed body raises the JSON-parse failure carrying the
parser's reason and a preview of the original untrimmed body. -/
def requestTimeApiJson (label : String) (o : FetchOutcome)
    (parse : String → Except String JsValue) : Except Failure JsValue :=
  match performTimeApiRequest label o with
  | .error f => .error f
  | .ok (status, bodyText) =>
    if !responseOk status then
      .error (.httpStatusFailure
        ("[" ++ label ++ "] timeapi.io responded with " ++ toString status ++ ": " ++
          (if bodyText == "" then "<empty response body>"
           else truncateBodyPreview bodyText 500)))
    else
      let trimmedBody := jsTrim bodyText
      if trimmedBody == "" then
        .error (.emptyBodyFailure
          ("[" ++ label ++ "] expected JSON body but received an empty response"))
      else
        match parse trimmedBody with
        | .ok v => .ok v
        | .error reason =>
          .error (.jsonParseFailure
            ("[" ++ label ++ "] failed to parse JSON: " ++ reason ++
              ". Response body: " ++ truncateBodyPreview bodyText 500))

/-- Drop leading JSON whitespace. -/
def skipWs : List Char → List Char
  | [] => []
  | c :: cs => if c = ' ' ∨ c = '\t' ∨ c = '\n' ∨ c = '\r' then skipWs cs else c :: cs

/-- The value of one JSON escape character, when it is a single-character
escape. -/
def escChar (c : Char) : Option Char :=
  if c = '"' then some '"'
  else if c = '\\' then some '\\'
  else if c = '/' then some '/'
  else if c = 'b' then some (Char.ofNat 8)
  else if c = 'f' then some (Char.ofNat 12)
  else if c = 'n' then some '\n'
  else if c = 'r' then some '\r'
  else if c = 't' then some '\t'
  else none

/-- The value of a hexadecimal digit. -/
def hexVal (c : Char) : Option Nat :=
  if '0' ≤ c ∧ c ≤ '9' then some (c.toNat - 48)
  else if 'a' ≤ c ∧ c ≤ 'f' then some (c.toNat - 87)
  else if 'A' ≤ c ∧ c ≤ 'F' then some (c.toNat - 55)
  else none

/-- Four hexadecimal digits as a code point. -/
def hex4 (a b c d : Char) : Option Nat :=
  match hexVal a, hexVal b, hexVal c, hexVal d with
  | some x, some y, some z, some w => some (((x * 16 + y) * 16 + z) * 16 + w)
  | _, _, _, _ => none

/-- Parse the remainder of a JSON string after the opening quote,
returning the decoded characters and the input after the closing quote.
The first argument is recursion fuel. -/
def parseJsonString : Nat → List Char → Except String (List Char × List Char)
  | 0, _ => .error "Unterminated string in JSON"
  | Nat.succ n, cs =>
    match cs with
    | [] => .error "Unterminated string in JSON"
    | c :: rest =>
      if c = '"' then .ok ([], rest)
      else if c = '\\' then
        match rest with
        | [] => .error "Unterminated string in JSON"
        | e :: rest2 =>
          match escChar e with
          | some d =>
            (parseJsonString n rest2).map (fun p => (d :: p.1, p.2))
          | none =>
            if e = 'u' then
              match rest2 with
              | a :: b :: c2 :: d2 :: rest3 =>
                match hex4 a b c2 d2 with
                | some m =>
                  (parseJsonString n rest3).map (fun p => (Char.ofNat m :: p.1, p.2))
                | none => .error "Bad Unicode escape in JSON"
              | _ => .error "Bad Unicode escape in JSON"
            else .error "Bad escaped character in JSON"
      else (parseJsonString n rest).map (fun p => (c :: p.1, p.2))

/-- The natural number denoted by a digit run. -/
def digitsToNat (ds : List Char) : Nat :=
  ds.foldl (fun a c => a * 10 + (c.toNat - 48)) 0

/-- Parse a JSON number (optional minus sign, integer digits, optional
fraction, optional exponent), returning its rational value and the rest of
the input. -/
def parseJsonNumber (cs : List Char) : Except String (Rat × List Char) :=
  let (negative, cs1) :=
    match cs with
    | c :: rest => if c = '-' then (true, rest) else (false, cs)
    | [] => (false, cs)
  let (intDigits, cs2) := cs1.span Char.isDigit
  if intDigits.isEmpty then .error "Unexpected token in JSON"
  else
    let (hadDot, fracDigits, cs3) :=
      match cs2 with
      | c :: rest =>
        if c = '.' then
          let (ds, cs3a) := rest.span Char.isDigit
          (true, ds, cs3a)
        else (false, ([] : List Char), cs2)
      | [] => (false, ([] : List Char), cs2)
    if hadDot && fracDigits.isEmpty then
      .error "Unexpected token in JSON"
    else
      let (expPart, cs4) :=
        match cs3 with
        | c :: rest =>
          if c = 'e' ∨ c = 'E' then
            match rest with
            | s :: rest2 =>
              if s = '+' then
                let (ds, cs4a) := rest2.span Char.isDigit
                (some (false, ds), cs4a)
              else if s = '-' then
                let (ds, cs4a) := rest2.span Char.isDigit
                (some (true, ds), cs4a)
              else
                let (ds, cs4a) := rest.span Char.isDigit
                (some (false, ds), cs4a)
            | [] => (some (false, ([] : List Char)), rest)
          else (none, cs3)
        | [] => (none, cs3)
      match expPart with
      | some (_, ds) =>
        if ds.isEmpty then .error "Unexpected token in JSON"
        else
          let mantissa : Rat :=
            (digitsToNat intDigits : Rat) +
              (digitsToNat fracDigits : Rat) / ((10 : Rat) ^ fracDigits.length)
          let scaled : Rat :=
            match expPart with
            | some (true, es) => mantissa / ((10 : Rat) ^ digitsToNat es)
            | some (false, es) => mantissa * ((10 : Rat) ^ digitsToNat es)
            | none => mantissa
          .ok (if negative then -scaled else scaled, cs4)
      | none =>
        let mantissa : Rat :=
          (digitsToNat intDigits : Rat) +
            (digitsToNat fracDigits : Rat) / ((10 : Rat) ^ fracDigits.length)
        .ok (if negative then -mantissa else mantissa, cs4)

mutual

/-- Parse one JSON value.  The first argument is recursion fuel; jsonParse
supplies enough fuel for any input of the given length. -/
def parseJsonValue : Nat → List Char → Except String (JsValue × List Char)
  | 0, _ => .error "JSON parser fuel exhausted"
  | Nat.succ n, cs0 =>
    match skipWs cs0 with
    | [] => .error "Unexpected end of JSON input"
    | c :: rest =>
      if c = 'n' then
        if rest.take 3 = ['u', 'l', 'l'] then .ok (.null, rest.drop 3)
        else .error "Unexpected token in JSON"
      else if c = 't' then
        if rest.take 3 = ['r', 'u', 'e'] then .ok (.bool true, rest.drop 3)
        else .error "Unexpected token in JSON"
      else if c = 'f' then
        if rest.take 4 = ['a', 'l', 's', 'e'] then .ok (.bool false, rest.drop 4)
        else .error "Unexpected token in JSON"
      else if c = '"' then
        (parseJsonString (rest.length + 1) rest).map (fun p => (.str (String.mk p.1), p.2))
      else if c = '[' then
        (parseJsonItems n rest).map (fun p => (.arr p.1, p.2))
      else if c = Char.ofNat 123 then
        (parseJsonMembers n rest).map (fun p => (.obj p.1, p.2))
      else if c = '-' ∨ c.isDigit then
        (parseJsonNumber (c :: rest)).map (fun p => (.num p.1, p.2))
      else .error "Unexpected token in JSON"

/-- Parse the elements of a JSON array after the opening bracket. -/
def parseJsonItems : Nat → List Char → Except String (List JsValue × List Char)
  | 0, _ => .error "JSON parser fuel exhausted"
  | Nat.succ n, cs =>
    match skipWs cs with
    | [] => .error "Unterminated array in JSON"
    | c :: rest =>
      if c = ']' then .ok ([], rest)
      else parseJsonItemsTail n (c :: rest)

/-- Parse one or more comma-separated array elements up to the closing
bracket. -/
def parseJsonItemsTail : Nat → List Char → Except String (List JsValue × List Char)
  | 0, _ => .error "JSON parser fuel exhausted"
  | Nat.succ n, cs =>
    match parseJsonValue n cs with
    | .error e => .error e
    | .ok (v, cs1) =>
      match skipWs cs1 with
      | [] => .error "Unterminated array in JSON"
      | c :: rest =>
        if c = ']' then .ok ([v], rest)
        else if c = ',' then
          (parseJsonItemsTail n rest).map (fun p => (v :: p.1, p.2))
        else .error "Expected comma or closing bracket in JSON array"

/-- Parse the members of a JSON object after the opening brace. -/
def parseJsonMembers : Nat → List Char →
    Except String (List (String × JsValue) × List Char)
  | 0, _ => .error "JSON parser fuel exhausted"
  | Nat.succ n, cs =>
    match skipWs cs with
    | [] => .error "Unterminated object in JSON"
    | c :: rest =>
      if c = Char.ofNat 125 then .ok ([], rest)
      else parseJsonMembersTail n (c :: rest)

/-- Parse one or more comma-separated object members up to the closing
brace. -/
def parseJsonMembersTail : Nat → List Char →
    Except String (List (String × JsValue) × List Char)
  | 0, _ => .error "JSON parser fuel exhausted"
  | Nat.succ n, cs =>
    match skipWs cs with
    | c :: rest =>
      if c = '"' then
        match parseJsonString (rest.length + 1) rest with
        | .error e => .error e
        | .ok (key, cs1) =>
          match skipWs cs1 with
          | d :: rest1 =>
            if d = ':' then
              match parseJsonValue n rest1 with
              | .error e => .error e
              | .ok (v, cs2) =>
                match skipWs cs2 with
                | e2 :: rest2 =>
                  if e2 = Char.ofNat 125 then .ok ([(String.mk key, v)], rest2)
                  else if e2 = ',' then
                    (parseJsonMembersTail n rest2).map
                      (fun p => ((String.mk key, v) :: p.1, p.2))
                  else .error "Expected comma or closing brace in JSON object"
                | [] => .error "Unterminated object in JSON"
            else .error "Expected colon in JSON object"
          | [] => .error "Unterminated object in JSON"
      else .error "Expected string key in JSON object"
    | [] => .error "Unterminated object in JSON"

end

/-- Executable model of the ambient JSON.parse builtin: parse one JSON
value and require only trailing whitespace after it. -/
def jsonParse (s : String) : Except String JsValue :=
  match parseJsonValue (2 * s.length + 8) s.data with
  | .error e => .error e
  | .ok (v, rest) =>
    match skipWs rest with
    | [] => .ok v
    | _ => .error "Unexpected non-whitespace character after JSON"

/-- createTimeResponse from src/index.ts.  The decoded payload is an
arbitrary JS value (the TypeScript annotation is erased at runtime);
reading a property of a null or undefined payload raises a TypeError, and
otherwise the output object promotes dateTime/date/time/dayOfWeek/dstActive
to the top level, nests the seven scalar component fields under
components, coalesces the timezone through the caller-supplied fallback,
and records the invoked URL under source. -/
def createTimeResponse (payload : JsValue) (url : TimeUrl)
    (fallbackTimeZone : Option String) : Except Failure JsValue :=
  if isNullish payload then
    .error (.typeError "Cannot read properties of null or undefined")
  else
    .ok (.obj [
      ("timeZone",
        jsCoalesce (getProp payload "timeZone")
          (jsCoalesce (optToJs fallbackTimeZone) .null)),
      ("dateTime", getProp payload "dateTime"),
      ("date", getProp payload "date"),
      ("time", getProp payload "time"),
      ("components", .obj [
        ("year", getProp payload "year"),
        ("month", getProp payload "month"),
        ("day", getProp payload "day"),
        ("hour", getProp payload "hour"),
        ("minute", getProp payload "minute"),
        ("seconds", getProp payload "seconds"),
        ("milliSeconds", getProp payload "milliSeconds")]),
      ("dayOfWeek", getProp payload "dayOfWeek"),
      ("dstActive", getProp payload "dstActive"),
      ("source", .str (urlToString url))])

/-- The output object of the spread-style handlers:
a spread of the decoded payload followed by the source field. -/
def spreadOutput (urlStr : String) (payload : JsValue) : JsValue :=
  .obj (jsSpread payload ++ [("source", .str urlStr)])

/-- The type-branching normalization of the day-of-year handler: a numeric
payload is wrapped directly; otherwise a truthy object value with a
numeric dayOfYear property has that property extracted; any other payload
is passed through under a data key.  Every branch records the source
URL. -/
def dayOfYearNormalize (urlStr : String) (payload : JsValue) : JsValue :=
  match payload with
  | .num n => .obj [("dayOfYear", .num n), ("source", .str urlStr)]
  | _ =>
    if truthy payload && typeofIsObject payload && hasProp payload "dayOfYear"
        && isNumber (getProp payload "dayOfYear") then
      .obj [("dayOfYear", getProp payload "dayOfYear"), ("source", .str urlStr)]
    else
      .obj [("data", payload), ("source", .str urlStr)]

/-- The current-time handler: GET /api/time/current/zone with the
timezone as query parameter, decoded through the JSON pipeline and shaped
by createTimeResponse with the caller's timezone as fallback. -/
def currentTimeHandler (timeZone : String) (o : FetchOutcome)
    (parse : String → Except String JsValue) : Except Failure JsValue :=
  let url := buildTimeApiUrl "/api/time/current/zone"
    (some [("timeZone", some (.str timeZone))])
  match requestTimeApiJson "current-time" o parse with
  | .error f => .error f
  | .ok payload => createTimeResponse payload url (some timeZone)

/-- The current-time-by-coordinate handler: GET /api/time/current/coordinate
with latitude and longitude as query parameters, shaped by
createTimeResponse without a fallback timezone. -/
def currentTimeByCoordinateHandler (latitude longitude : Rat) (o : FetchOutcome)
    (parse : String → Except String JsValue) : Except Failure JsValue :=
  let url := buildTimeApiUrl "/api/time/current/coordinate"
    (some [("latitude", some (.num latitude)), ("longitude", some (.num longitude))])
  match requestTimeApiJson "current-time-by-coordinate" o parse with
  | .error f => .error f
  | .ok payload => createTimeResponse payload url none

/-- The current-time-by-ip handler: GET /api/time/current/ip with the IP
address as query parameter, shaped by createTimeResponse without a
fallback timezone. -/
def currentTimeByIpHandler (ipAddress : String) (o : FetchOutcome)
    (parse : String → Except String JsValue) : Except Failure JsValue :=
  let url := buildTimeApiUrl "/api/time/current/ip"
    (some [("ipAddress", some (.str ipAddress))])
  match requestTimeApiJson "current-time-by-ip" o parse with
  | .error f => .error f
  | .ok payload => createTimeResponse payload url none

/-- The available-timezones handler: GET /api/timezone/availabletimezones;
the output holds the payload, its length property read and the source URL.
Reading the length of a null payload raises a TypeError. -/
def availableTimezonesHandler (o : FetchOutcome)
    (parse : String → Except String JsValue) : Except Failure JsValue :=
  let url := buildTimeApiUrl "/api/timezone/availabletimezones" none
  match requestTimeApiJson "available-timezones" o parse with
  | .error f => .error f
  | .ok payload =>
    if isNullish payload then
      .error (.typeError "Cannot read properties of null or undefined")
    else
      .ok (.obj [
        ("timeZones", payload),
        ("count", jsLength payload),
        ("source", .str (urlToString url))])

/-- The timezone-info handler: GET /api/timezone/zone, output spread with
source. -/
def timezoneInfoHandler (timeZone : String) (o : FetchOutcome)
    (parse : String → Except String JsValue) : Except Failure JsValue :=
  let url := buildTimeApiUrl "/api/timezone/zone"
    (some [("timeZone", some (.str timeZone))])
  (requestTimeApiJson "timezone-info" o parse).map (spreadOutput (urlToString url))

/-- The timezone-info-by-coordinate handler: GET /api/timezone/coordinate,
output spread with source. -/
def timezoneInfoByCoordinateHandler (latitude longitude : Rat) (o : FetchOutcome)
    (parse : String → Except String JsValue) : Except Failure JsValue :=
  let url := buildTimeApiUrl "/api/timezone/coordinate"
    (some [("latitude", some (.num latitude)), ("longitude", some (.num longitude))])
  (requestTimeApiJson "timezone-info-by-coordinate" o parse).map
    (spreadOutput (urlToString url))

/-- The timezone-info-by-ip handler: GET /api/timezone/ip, output spread
with source. -/
def timezoneInfoByIpHandler (ipAddress : String) (o : FetchOutcome)
    (parse : String → Except String JsValue) : Except Failure JsValue :=
  let url := buildTimeApiUrl "/api/timezone/ip"
    (some [("ipAddress", some (.str ipAddress))])
  (requestTimeApiJson "timezone-info-by-ip" o parse).map
    (spreadOutput (urlToString url))

/-- The convert-timezone handler: POST /api/conversion/converttimezone
(the JSON request body the source builds feeds only the abstracted fetch
call), output spread with source. -/
def convertTimezoneHandler (fromTimeZone dateTime toTimeZone : String)
    (dstAmbiguity : Option String) (o : FetchOutcome)
    (parse : String → Except String JsValue) : Except Failure JsValue :=
  let url := buildTimeApiUrl "/api/conversion/converttimezone" none
  (requestTimeApiJson "convert-timezone" o parse).map (spreadOutput (urlToString url))

/-- The translate-datetime handler: POST /api/conversion/translate, output
spread with source. -/
def translateDatetimeHandler (dateTime languageCode : String) (o : FetchOutcome)
    (parse : String → Except String JsValue) : Except Failure JsValue :=
  let url := buildTimeApiUrl "/api/conversion/translate" none
  (requestTimeApiJson "translate-datetime" o parse).map (spreadOutput (urlToString url))

/-- The day-of-week handler: GET /api/conversion/dayoftheweek/ with the
URI-encoded date in the path, output spread with source. -/
def dayOfWeekHandler (date : String) (o : FetchOutcome)
    (parse : String → Except String JsValue) : Except Failure JsValue :=
  let url := buildTimeApiUrl
    ("/api/conversion/dayoftheweek/" ++ encodeURIComponentModel date) none
  (requestTimeApiJson "day-of-week" o parse).map (spreadOutput (urlToString url))

/-- The day-of-year handler: GET /api/conversion/dayoftheyear/ with the
URI-encoded date in the path, output shaped by the type-branching
normalization. -/
def dayOfYearHandler (date : String) (o : FetchOutcome)
    (parse : String → Except String JsValue) : Except Failure JsValue :=
  let url := buildTimeApiUrl
    ("/api/conversion/dayoftheyear/" ++ encodeURIComponentModel date) none
  (requestTimeApiJson "day-of-year" o parse).map (dayOfYearNormalize (urlToString url))

/-- The increment-current-time handler: POST /api/calculation/current/increment,
output spread with source. -/
def incrementCurrentTimeHandler (timeZone timeSpan : String) (o : FetchOutcome)
    (parse : String → Except String JsValue) : Except Failure JsValue :=
  let url := buildTimeApiUrl "/api/calculation/current/increment" none
  (requestTimeApiJson "increment-current-time" o parse).map
    (spreadOutput (urlToString url))

/-- The decrement-current-time handler: POST /api/calculation/current/decrement,
output spread with source. -/
def decrementCurrentTimeHandler (timeZone timeSpan : String) (o : FetchOutcome)
    (parse : String → Except String JsValue) : Except Failure JsValue :=
  let url := buildTimeApiUrl "/api/calculation/current/decrement" none
  (requestTimeApiJson "decrement-current-time" o parse).map
    (spreadOutput (urlToString url))

/-- The increment-custom-time handler: POST /api/calculation/custom/increment,
output spread with source. -/
def incrementCustomTimeHandler (timeZone dateTime timeSpan : String)
    (dstAmbiguity : Option String) (o : FetchOutcome)
    (parse : String → Except String JsValue) : Except Failure JsValue :=
  let url := buildTimeApiUrl "/api/calculation/custom/increment" none
  (requestTimeApiJson "increment-custom-time" o parse).map
    (spreadOutput (urlToString url))

/-- The decrement-custom-time handler: POST /api/calculation/custom/decrement,
output spread with source. -/
def decrementCustomTimeHandler (timeZone dateTime timeSpan : String)
    (dstAmbiguity : Option String) (o : FetchOutcome)
    (parse : String → Except String JsValue) : Except Failure JsValue :=
  let url := buildTimeApiUrl "/api/calculation/custom/decrement" none
  (requestTimeApiJson "decrement-custom-time" o parse).map
    (spreadOutput (urlToString url))

/-- The health-check handler: GET /api/health/check through the plain
transport (no JSON decoding).  A non-ok status raises the HTTP-status
failure with the same preview rule as the JSON pipeline; an ok status
succeeds with the trimmed body, null substituted for an empty trimmed
body. -/
def healthCheckHandler (o : FetchOutcome) : Except Failure JsValue :=
  let url := buildTimeApiUrl "/api/health/check" none
  match performTimeApiRequest "health-check" o with
  | .error f => .error f
  | .ok (status, bodyText) =>
    if !responseOk status then
      .error (.httpStatusFailure
        ("[health-check] timeapi.io responded with " ++ toString status ++ ": " ++
          (if bodyText == "" then "<empty response body>"
           else truncateBodyPreview bodyText 500)))
    else
      .ok (.obj [
        ("ok", .bool true),
        ("status", .num status),
        ("body", if jsTrim bodyText == "" then .null else .str (jsTrim bodyText)),
        ("source", .str (urlToString url))])

/-- One invocation of a registered entrypoint together with its validated
input (the sixteen registerEntrypoint calls of src/index.ts, in
registration order). -/
inductive Invocation where
  | currentTime (timeZone : String) : Invocation
  | currentTimeByCoordinate (latitude longitude : Rat) : Invocation
  | currentTimeByIp (ipAddress : String) : Invocation
  | availableTimezones : Invocation
  | timezoneInfo (timeZone : String) : Invocation
  | timezoneInfoByCoordinate (latitude longitude : Rat) : Invocation
  | timezoneInfoByIp (ipAddress : String) : Invocation
  | convertTimezone (fromTimeZone dateTime toTimeZone : String)
      (dstAmbiguity : Option String) : Invocation
  | translateDatetime (dateTime languageCode : String) : Invocation
  | dayOfWeek (date : String) : Invocation
  | dayOfYear (date : String) : Invocation
  | incrementCurrentTime (timeZone timeSpan : String) : Invocation
  | decrementCurrentTime (timeZone timeSpan : String) : Invocation
  | incrementCustomTime (timeZone dateTime timeSpan : String)
      (dstAmbiguity : Option String) : Invocation
  | decrementCustomTime (timeZone dateTime timeSpan : String)
      (dstAmbiguity : Option String) : Invocation
  | healthCheck : Invocation

/-- The URL each entrypoint invokes for a given validated input. -/
def invocationUrl : Invocation → TimeUrl
  | .currentTime timeZone =>
    buildTimeApiUrl "/api/time/current/zone" (some [("timeZone", some (.str timeZone))])
  | .currentTimeByCoordinate latitude longitude =>
    buildTimeApiUrl "/api/time/current/coordinate"
      (some [("latitude", some (.num latitude)), ("longitude", some (.num longitude))])
  | .currentTimeByIp ipAddress =>
    buildTimeApiUrl "/api/time/current/ip" (some [("ipAddress", some (.str ipAddress))])
  | .availableTimezones => buildTimeApiUrl "/api/timezone/availabletimezones" none
  | .timezoneInfo timeZone =>
    buildTimeApiUrl "/api/timezone/zone" (some [("timeZone", some (.str timeZone))])
  | .timezoneInfoByCoordinate latitude longitude =>
    buildTimeApiUrl "/api/timezone/coordinate"
      (some [("latitude", some (.num latitude)), ("longitude", some (.num longitude))])
  | .timezoneInfoByIp ipAddress =>
    buildTimeApiUrl "/api/timezone/ip" (some [("ipAddress", some (.str ipAddress))])
  | .convertTimezone _ _ _ _ => buildTimeApiUrl "/api/conversion/converttimezone" none
  | .translateDatetime _ _ => buildTimeApiUrl "/api/conversion/translate" none
  | .dayOfWeek date =>
    buildTimeApiUrl ("/api/conversion/dayoftheweek/" ++ encodeURIComponentModel date) none
  | .dayOfYear date =>
    buildTimeApiUrl ("/api/conversion/dayoftheyear/" ++ encodeURIComponentModel date) none
  | .incrementCurrentTime _ _ => buildTimeApiUrl "/api/calculation/current/increment" none
  | .decrementCurrentTime _ _ => buildTimeApiUrl "/api/calculation/current/decrement" none
  | .incrementCustomTime _ _ _ _ => buildTimeApiUrl "/api/calculation/custom/increment" none
  | .decrementCustomTime _ _ _ _ => buildTimeApiUrl "/api/calculation/custom/decrement" none
  | .healthCheck => buildTimeApiUrl "/api/health/check" none

/-- Dispatch an invocation to its handler over the abstracted fetch
outcome and JSON.parse builtin. -/
def runInvocation (inv : Invocation) (o : FetchOutcome)
    (parse : String → Except String JsValue) : Except Failure JsValue :=
  match inv with
  | .currentTime timeZone => currentTimeHandler timeZone o parse
  | .currentTimeByCoordinate latitude longitude =>
    currentTimeByCoordinateHandler latitude longitude o parse
  | .currentTimeByIp ipAddress => currentTimeByIpHandler ipAddress o parse
  | .availableTimezones => availableTimezonesHandler o parse
  | .timezoneInfo timeZone => timezoneInfoHandler timeZone o parse
  | .timezoneInfoByCoordinate latitude longitude =>
    timezoneInfoByCoordinateHandler latitude longitude o parse
  | .timezoneInfoByIp ipAddress => timezoneInfoByIpHandler ipAddress o parse
  | .convertTimezone fromTimeZone dateTime toTimeZone dstAmbiguity =>
    convertTimezoneHandler fromTimeZone dateTime toTimeZone dstAmbiguity o parse
  | .translateDatetime dateTime languageCode =>
    translateDatetimeHandler dateTime languageCode o parse
  | .dayOfWeek date => dayOfWeekHandler date o parse
  | .dayOfYear date => dayOfYearHandler date o parse
  | .incrementCurrentTime timeZone timeSpan =>
    incrementCurrentTimeHandler timeZone timeSpan o parse
  | .decrementCurrentTime timeZone timeSpan =>
    decrementCurrentTimeHandler timeZone timeSpan o parse
  | .incrementCustomTime timeZone dateTime timeSpan dstAmbiguity =>
    incrementCustomTimeHandler timeZone dateTime timeSpan dstAmbiguity o parse
  | .decrementCustomTime timeZone dateTime timeSpan dstAmbiguity =>
    decrementCustomTimeHandler timeZone dateTime timeSpan dstAmbiguity o parse
  | .healthCheck => healthCheckHandler o

/-- A fetch outcome whose body read did not fail. -/
def BodyReadOk (o : FetchOutcome) : Prop :=
  ∀ status e, o ≠ FetchOutcome.responded status (Except.error e)

/-- A JSON.parse model that never produces null or undefined (the decoded
payloads under which every handler avoids unguarded property reads). -/
def NonNullParse (parse : String → Except String JsValue) : Prop :=
  ∀ s v, parse s = Except.ok v → isNullish v = false

/-- A 501-character body used to witness truncation. -/
def longDummyBody : String := String.mk (List.replicate 501 (Char.ofNat 97))

/-- A 500-character body used to witness the unmodified case. -/
def exactDummyBody : String := String.mk (List.replicate 500 (Char.ofNat 97))

/-- C3: truncateBodyPreview returns every body of at most 500 characters
unchanged, and cuts a longer body to exactly its first 500 characters
followed by the ellipsis marker. -/
theorem truncateBodyPreview_spec (body : String) :
    (body.length ≤ 500 → truncateBodyPreview body 500 = body)
    ∧ (500 < body.length →
        truncateBodyPreview body 500 = String.mk (body.data.take 500) ++ "…") := by
  constructor
  · intro h
    rw [truncateBodyPreview, if_pos h]
  · intro h
    rw [truncateBodyPreview, if_neg (by omega)]

set_option maxRecDepth 4096 in
/-- C3, witness: a 501-character body is truncated to its first 500
characters plus the marker; a 500-character body is returned unmodified. -/
theorem truncateBodyPreview_spec_witness :
    (500 < longDummyBody.length ∧
      truncateBodyPreview longDummyBody 500 =
        String.mk (longDummyBody.data.take 500) ++ "…")
    ∧ (exactDummyBody.length ≤ 500 ∧
        truncateBodyPreview exactDummyBody 500 = exactDummyBody) :=
  ⟨⟨by decide, (truncateBodyPreview_spec longDummyBody).2 (by decide)⟩,
   ⟨by decide, (truncateBodyPreview_spec exactDummyBody).1 (by decide)⟩⟩

/-- C6 (amended): whenever a response is obtained and its body read
succeeds, the transport layer returns the full body text alongside the
status for any status code, and a rejected fetch raises the labelled
network failure; but a failing body read is not downgraded — the read
error propagates as an uncaught error past this boundary. -/
theorem performTimeApiRequest_transport_behavior
    (label : String) (status : Nat) (body e reason : String) :
    performTimeApiRequest label (.responded status (.ok body)) = .ok (status, body)
    ∧ performTimeApiRequest label (.responded status (.error e)) =
        .error (.unhandled e)
    ∧ performTimeApiRequest label (.failed reason) =
        .error (.networkFailure
          ("[" ++ label ++ "] network request failed: " ++ reason)) :=
  ⟨rfl, rfl, rfl⟩

/-- C6, counterexample: a failing body read on an obtained 200 response is
not treated as an effectively empty body — the read error propagates out
of performTimeApiRequest instead of yielding the response paired with an
empty body text. -/
theorem performTimeApiRequest_body_read_failure_propagates :
    performTimeApiRequest "health-check"
        (.responded 200 (.error "body stream aborted")) =
      .error (.unhandled "body stream aborted")
    ∧ performTimeApiRequest "health-check"
        (.responded 200 (.error "body stream aborted")) ≠
      .ok (200, "") :=
  ⟨rfl, fun h => nomatch h⟩

/-- C1: a response with a status outside 200-299 makes the JSON pipeline
raise the HTTP-status failure carrying the label, the status code and the
body preview (the 500-character truncation, or the fixed empty-body
marker), and the result does not depend on the JSON parser at all — the
body is never decoded, even when it is valid JSON. -/
theorem requestTimeApiJson_non_success_status
    (label : String) (status : Nat) (body : String)
    (parse : String → Except String JsValue)
    (h : ¬ (200 ≤ status ∧ status ≤ 299)) :
    requestTimeApiJson label (.responded status (.ok body)) parse =
      .error (.httpStatusFailure
        ("[" ++ label ++ "] timeapi.io responded with " ++ toString status ++ ": " ++
          (if body == "" then "<empty response body>"
           else truncateBodyPreview body 500))) := by
  have hb : responseOk status = false := by
    rw [responseOk]
    rcases Nat.lt_or_ge status 200 with hlt | hge
    · simp [Nat.not_le_of_lt hlt]
    · have : ¬ status ≤ 299 := fun hc => h ⟨hge, hc⟩
      simp [this]
  simp [requestTimeApiJson, performTimeApiRequest, hb]

/-- The empty-body message and the parse-failure message of the JSON
pipeline differ for every label, reason and preview: after cancelling the
shared label prefix, the two fixed message texts disagree at their third
character. -/
theorem emptyBody_parse_messages_differ (label reason preview : String) :
    ("[" ++ label ++ "] expected JSON body but received an empty response" : String) ≠
      "[" ++ label ++ "] failed to parse JSON: " ++ reason ++
        ". Response body: " ++ preview := by
  intro h
  have h2 := congrArg String.data h
  simp only [String.data_append, List.append_assoc] at h2
  have h3 := List.append_cancel_left (List.append_cancel_left h2)
  have h4 := congrArg (fun l => l[2]?) h3
  simp only [] at h4
  rw [List.getElem?_append] at h4
  simp at h4

/-- C2: on a success status, an empty trimmed body raises the empty-body
failure; a non-empty trimmed body whose parse fails raises the JSON-parse
failure carrying the parser's reason and the 500-character preview of the
original untrimmed body; and the two failure kinds produce different
messages for every reason and preview. -/
theorem requestTimeApiJson_ok_body_decoding
    (label : String) (status : Nat) (body : String)
    (parse : String → Except String JsValue)
    (h200 : 200 ≤ status) (h299 : status ≤ 299) :
    (jsTrim body = "" →
      requestTimeApiJson label (.responded status (.ok body)) parse =
        .error (.emptyBodyFailure
          ("[" ++ label ++ "] expected JSON body but received an empty response")))
    ∧ (∀ reason, jsTrim body ≠ "" → parse (jsTrim body) = .error reason →
        requestTimeApiJson label (.responded status (.ok body)) parse =
          .error (.jsonParseFailure
            ("[" ++ label ++ "] failed to parse JSON: " ++ reason ++
              ". Response body: " ++ truncateBodyPreview body 500)))
    ∧ (∀ reason preview,
        ("[" ++ label ++ "] expected JSON body but received an empty response" : String) ≠
          "[" ++ label ++ "] failed to parse JSON: " ++ reason ++
            ". Response body: " ++ preview) := by
  have hb : responseOk status = true := by
    simp only [responseOk, Bool.and_eq_true, decide_eq_true_eq]
    exact ⟨h200, h299⟩
  refine ⟨?_, ?_, fun reason preview => emptyBody_parse_messages_differ label reason preview⟩
  · intro htrim
    simp [requestTimeApiJson, performTimeApiRequest, hb, htrim]
  · intro reason hne hparse
    simp [requestTimeApiJson, performTimeApiRequest, hb, hne, hparse]

/-- C1, witness: a 500 response whose body is valid JSON still raises the
HTTP-status failure (the body is never decoded; the concrete jsonParse
model accepts the body, yet the pipeline result is the status failure). -/
theorem requestTimeApiJson_non_success_status_witness :
    (¬ ((200 : Nat) ≤ 500 ∧ (500 : Nat) ≤ 299))
    ∧ (jsonParse "\x7b\"ok\":true\x7d").isOk = true
    ∧ requestTimeApiJson "current-time"
        (.responded 500 (.ok "\x7b\"ok\":true\x7d")) jsonParse =
      .error (.httpStatusFailure
        ("[" ++ "current-time" ++ "] timeapi.io responded with " ++ toString (500 : Nat) ++
          ": " ++
          (if ("\x7b\"ok\":true\x7d" : String) == "" then "<empty response body>"
           else truncateBodyPreview "\x7b\"ok\":true\x7d" 500))) :=
  ⟨by decide, by decide,
    requestTimeApiJson_non_success_status "current-time" 500 "\x7b\"ok\":true\x7d"
      jsonParse (by decide)⟩

/-- C2, witness: an empty body on a 200 response raises the empty-body
failure, while the body "not json" raises the JSON-parse failure whose
preview is the body itself. -/
theorem requestTimeApiJson_ok_body_decoding_witness :
    (jsTrim "" = "" ∧
      requestTimeApiJson "current-time" (.responded 200 (.ok "")) jsonParse =
        .error (.emptyBodyFailure
          ("[" ++ "current-time" ++ "] expected JSON body but received an empty response")))
    ∧ (jsonParse (jsTrim "not json") = .error "Unexpected token in JSON" ∧
        truncateBodyPreview "not json" 500 = "not json" ∧
        requestTimeApiJson "current-time" (.responded 200 (.ok "not json")) jsonParse =
          .error (.jsonParseFailure
            ("[" ++ "current-time" ++ "] failed to parse JSON: " ++
              "Unexpected token in JSON" ++ ". Response body: " ++
              truncateBodyPreview "not json" 500))) :=
  ⟨⟨rfl,
    (requestTimeApiJson_ok_body_decoding "current-time" 200 "" jsonParse
      (by decide) (by decide)).1 rfl⟩,
   ⟨rfl, rfl,
    (requestTimeApiJson_ok_body_decoding "current-time" 200 "not json" jsonParse
      (by decide) (by decide)).2.1 "Unexpected token in JSON" (by decide) rfl⟩⟩

/-- C10: a success-status response whose body is empty or whitespace-only
does not raise an empty-body failure in the health-check entrypoint — the
handler succeeds with ok true, the status code, null substituted for the
blank body, and the health-check URL as source. -/
theorem healthCheck_blank_ok_body_succeeds
    (status : Nat) (body : String)
    (h200 : 200 ≤ status) (h299 : status ≤ 299) (hblank : jsTrim body = "") :
    healthCheckHandler (.responded status (.ok body)) =
      .ok (.obj [
        ("ok", .bool true),
        ("status", .num status),
        ("body", .null),
        ("source", .str "https://timeapi.io/api/health/check")]) := by
  have hb : responseOk status = true := by
    simp only [responseOk, Bool.and_eq_true, decide_eq_true_eq]
    exact ⟨h200, h299⟩
  simp [healthCheckHandler, performTimeApiRequest, hb, hblank]
  rfl

/-- C10, witness: a 200 response with a whitespace-only body succeeds with
a null body field. -/
theorem healthCheck_blank_ok_body_succeeds_witness :
    jsTrim "  \n " = "" ∧
    healthCheckHandler (.responded 200 (.ok "  \n ")) =
      .ok (.obj [
        ("ok", .bool true),
        ("status", .num 200),
        ("body", .null),
        ("source", .str "https://timeapi.io/api/health/check")]) :=
  ⟨rfl, healthCheck_blank_ok_body_succeeds 200 "  \n " (by decide) (by decide) rfl⟩

/-- C4: the day-of-year normalization applies exactly one of three
mutually exclusive branches, checked in strict order: a numeric payload is
wrapped directly as dayOfYear; otherwise a truthy object value with a
numeric dayOfYear property has that property extracted; otherwise the
payload is passed through under a data key.  The first two branch
conditions can never hold together. -/
theorem dayOfYear_branching (urlStr : String) (payload : JsValue) :
    (∀ n, payload = .num n →
      dayOfYearNormalize urlStr payload =
        .obj [("dayOfYear", .num n), ("source", .str urlStr)])
    ∧ (isNumber payload = false →
        (truthy payload && typeofIsObject payload && hasProp payload "dayOfYear"
            && isNumber (getProp payload "dayOfYear")) = true →
        ∃ m, getProp payload "dayOfYear" = .num m ∧
          dayOfYearNormalize urlStr payload =
            .obj [("dayOfYear", .num m), ("source", .str urlStr)])
    ∧ (isNumber payload = false →
        (truthy payload && typeofIsObject payload && hasProp payload "dayOfYear"
            && isNumber (getProp payload "dayOfYear")) = false →
        dayOfYearNormalize urlStr payload =
          .obj [("data", payload), ("source", .str urlStr)])
    ∧ ¬ (isNumber payload = true ∧
          (truthy payload && typeofIsObject payload && hasProp payload "dayOfYear"
              && isNumber (getProp payload "dayOfYear")) = true) := by
  refine ⟨?_, ?_, ?_, ?_⟩
  · intro n h
    subst h
    rfl
  · intro hnum hcond
    cases payload with
    | num n => simp [isNumber] at hnum
    | undefined => simp [truthy] at hcond
    | null => simp [truthy] at hcond
    | bool b => simp [typeofIsObject] at hcond
    | str s => simp [typeofIsObject] at hcond
    | arr elems =>
      simp [hasProp] at hcond
    | obj fields =>
      have hget : isNumber (getProp (JsValue.obj fields) "dayOfYear") = true := by
        simp only [Bool.and_eq_true] at hcond
        exact hcond.2
      cases hv : getProp (JsValue.obj fields) "dayOfYear" with
      | num m =>
        refine ⟨m, rfl, ?_⟩
        rw [hv] at hcond
        simp only [dayOfYearNormalize]
        rw [hv, if_pos hcond]
      | undefined => rw [hv] at hget; simp [isNumber] at hget
      | null => rw [hv] at hget; simp [isNumber] at hget
      | bool b => rw [hv] at hget; simp [isNumber] at hget
      | str s => rw [hv] at hget; simp [isNumber] at hget
      | arr e2 => rw [hv] at hget; simp [isNumber] at hget
      | obj f2 => rw [hv] at hget; simp [isNumber] at hget
  · intro hnum hcond
    cases payload with
    | num n => simp [isNumber] at hnum
    | undefined => simp [dayOfYearNormalize, hcond]
    | null => simp [dayOfYearNormalize, hcond]
    | bool b => simp [dayOfYearNormalize, hcond]
    | str s => simp [dayOfYearNormalize, hcond]
    | arr elems => simp [dayOfYearNormalize, hcond]
    | obj fields => simp [dayOfYearNormalize, hcond]
  · rintro ⟨h1, h2⟩
    cases payload with
    | num n => simp [typeofIsObject] at h2
    | undefined => simp [isNumber] at h1
    | null => simp [isNumber] at h1
    | bool b => simp [isNumber] at h1
    | str s => simp [isNumber] at h1
    | arr elems => simp [isNumber] at h1
    | obj fields => simp [isNumber] at h1

/-- C4, witness: the numeric payload 7, the object payload with a numeric
dayOfYear property, and a string payload each take their own branch. -/
theorem dayOfYear_branching_witness :
    (dayOfYearNormalize "u" (.num 7) =
      .obj [("dayOfYear", .num 7), ("source", .str "u")])
    ∧ (∃ m, getProp (.obj [("dayOfYear", JsValue.num 7)]) "dayOfYear" = .num m ∧
        dayOfYearNormalize "u" (.obj [("dayOfYear", .num 7)]) =
          .obj [("dayOfYear", .num m), ("source", .str "u")])
    ∧ (dayOfYearNormalize "u" (.str "x") =
        .obj [("data", .str "x"), ("source", .str "u")]) :=
  ⟨(dayOfYear_branching "u" (.num 7)).1 7 rfl,
   (dayOfYear_branching "u" (.obj [("dayOfYear", .num 7)])).2.1 rfl rfl,
   (dayOfYear_branching "u" (.str "x")).2.2.1 rfl rfl⟩

/-- Key-wise unfolding of assocSet on a cons cell, with the key test at
the Prop level. -/
theorem assocSet_cons (p : String × String) (rest : List (String × String))
    (k v : String) :
    assocSet (p :: rest) k v =
      if p.1 = k then (k, v) :: rest.filter (fun q => q.1 != k)
      else p :: assocSet rest k v := by
  by_cases h : p.1 = k <;> simp [assocSet, h]

/-- Key-wise unfolding of find? on a cons cell, with the key test at the
Prop level. -/
theorem find?_key_cons (p : String × String) (l : List (String × String))
    (k : String) :
    (p :: l).find? (fun q => q.1 == k) =
      if p.1 = k then some p else l.find? (fun q => q.1 == k) := by
  by_cases h : p.1 = k <;> simp [List.find?_cons, h]

/-- Key-wise unfolding of countP on a cons cell, with the key test at the
Prop level. -/
theorem countP_key_cons (p : String × String) (l : List (String × String))
    (k : String) :
    (p :: l).countP (fun q => q.1 == k) =
      l.countP (fun q => q.1 == k) + (if p.1 = k then 1 else 0) := by
  by_cases h : p.1 = k <;> simp [List.countP_cons, h]

/-- Key-wise unfolding of the duplicate-dropping filter on a cons cell. -/
theorem filter_ne_cons (p : String × String) (l : List (String × String))
    (k : String) :
    (p :: l).filter (fun q => q.1 != k) =
      if p.1 = k then l.filter (fun q => q.1 != k)
      else p :: l.filter (fun q => q.1 != k) := by
  by_cases h : p.1 = k <;> simp [List.filter_cons, bne, h]

/-- Searching for one key ignores the removal of another key's bindings. -/
theorem find?_filter_ne (rest : List (String × String)) (k k2 : String)
    (h : k2 ≠ k) :
    (rest.filter (fun q => q.1 != k)).find? (fun q => q.1 == k2) =
      rest.find? (fun q => q.1 == k2) := by
  induction rest with
  | nil => rfl
  | cons q rest ih =>
    rw [filter_ne_cons, find?_key_cons]
    by_cases hq : q.1 = k
    · have hqk2 : ¬ q.1 = k2 := by rw [hq]; exact fun hc => h hc.symm
      rw [if_pos hq, if_neg hqk2]
      exact ih
    · rw [if_neg hq, find?_key_cons]
      by_cases hq2 : q.1 = k2
      · rw [if_pos hq2, if_pos hq2]
      · rw [if_neg hq2, if_neg hq2, ih]

/-- assocSet installs exactly the new binding under its own key. -/
theorem assocSet_find?_self (ps : List (String × String)) (k v : String) :
    (assocSet ps k v).find? (fun p => p.1 == k) = some (k, v) := by
  induction ps with
  | nil => simp [assocSet, find?_key_cons]
  | cons p rest ih =>
    rw [assocSet_cons]
    by_cases hp : p.1 = k
    · rw [if_pos hp, find?_key_cons, if_pos rfl]
    · rw [if_neg hp, find?_key_cons, if_neg hp, ih]

/-- assocSet leaves the first binding of every other key unchanged. -/
theorem assocSet_find?_other (ps : List (String × String)) (k v k2 : String)
    (h : k2 ≠ k) :
    (assocSet ps k v).find? (fun p => p.1 == k2) =
      ps.find? (fun p => p.1 == k2) := by
  have hk : ¬ (k = k2) := fun hc => h hc.symm
  induction ps with
  | nil =>
    rw [show assocSet [] k v = [(k, v)] from rfl, find?_key_cons, if_neg hk]
  | cons p rest ih =>
    rw [assocSet_cons]
    by_cases hp : p.1 = k
    · have hpk2 : ¬ p.1 = k2 := by rw [hp]; exact hk
      rw [if_pos hp, find?_key_cons, if_neg hk, find?_key_cons, if_neg hpk2]
      exact find?_filter_ne rest k k2 h
    · rw [if_neg hp, find?_key_cons, find?_key_cons]
      by_cases hp2 : p.1 = k2
      · rw [if_pos hp2, if_pos hp2]
      · rw [if_neg hp2, if_neg hp2, ih]

/-- Removing all bindings of a key leaves none of them. -/
theorem countP_filter_ne_self (rest : List (String × String)) (k : String) :
    (rest.filter (fun q => q.1 != k)).countP (fun p => p.1 == k) = 0 := by
  rw [List.countP_filter]
  have heq : (fun (a : String × String) => (a.1 == k) && (a.1 != k)) =
      fun _ => false := by
    funext a
    by_cases h2 : a.1 = k <;> simp [bne, h2]
  rw [heq]
  simp

/-- After assocSet, the set key has exactly one binding. -/
theorem assocSet_countP_self (ps : List (String × String)) (k v : String) :
    (assocSet ps k v).countP (fun p => p.1 == k) = 1 := by
  induction ps with
  | nil => simp [assocSet, countP_key_cons]
  | cons p rest ih =>
    rw [assocSet_cons]
    by_cases hp : p.1 = k
    · rw [if_pos hp, countP_key_cons, if_pos rfl, countP_filter_ne_self]
    · rw [if_neg hp, countP_key_cons, if_neg hp, ih]

/-- assocSet never increases the number of bindings of another key. -/
theorem assocSet_countP_other_le (ps : List (String × String)) (k v k2 : String)
    (h : k2 ≠ k) :
    (assocSet ps k v).countP (fun p => p.1 == k2) ≤
      ps.countP (fun p => p.1 == k2) := by
  have hk : ¬ (k = k2) := fun hc => h hc.symm
  induction ps with
  | nil =>
    rw [show assocSet [] k v = [(k, v)] from rfl, countP_key_cons, if_neg hk]
    simp
  | cons p rest ih =>
    rw [assocSet_cons]
    by_cases hp : p.1 = k
    · have hpk2 : ¬ p.1 = k2 := by rw [hp]; exact hk
      have hsub : List.Sublist (rest.filter (fun q => q.1 != k)) rest :=
        List.filter_sublist rest
      have hfil := hsub.countP_le (fun p => p.1 == k2)
      rw [if_pos hp, countP_key_cons, if_neg hk, countP_key_cons, if_neg hpk2]
      omega
    · rw [if_neg hp, countP_key_cons, countP_key_cons]
      by_cases hp2 : p.1 = k2
      · rw [if_pos hp2]
        omega
      · rw [if_neg hp2]
        omega

/-- Folding assocSet over a list of writes (the common core of the query
builder and of the header merger). -/
def assocSetFold (ws ps : List (String × String)) : List (String × String) :=
  ws.foldl (fun b w => assocSet b w.1 w.2) ps

/-- After folding a write list, the binding found under a key is the last
write for that key, or the original binding when the key was never
written. -/
theorem assocSetFold_find? (ws ps : List (String × String)) (k : String) :
    (assocSetFold ws ps).find? (fun p => p.1 == k) =
      match ((ws.filter (fun w => w.1 == k)).map (fun w => w.2)).getLast? with
      | some v => some (k, v)
      | none => ps.find? (fun p => p.1 == k) := by
  induction ws using List.reverseRecOn generalizing ps with
  | nil => rfl
  | append_singleton ws w ih =>
    have hfold : assocSetFold (ws ++ [w]) ps =
        assocSet (assocSetFold ws ps) w.1 w.2 := by
      rw [assocSetFold, List.foldl_append]
      rfl
    rw [hfold]
    by_cases hw : w.1 = k
    · have hfilter : (ws ++ [w]).filter (fun w => w.1 == k) =
          ws.filter (fun w => w.1 == k) ++ [w] := by
        rw [List.filter_append]
        simp [List.filter_cons, hw]
      rw [hfilter, List.map_append]
      simp only [List.map_cons, List.map_nil]
      rw [List.getLast?_concat, hw]
      exact assocSet_find?_self (assocSetFold ws ps) k w.2
    · have hfilter : (ws ++ [w]).filter (fun w => w.1 == k) =
          ws.filter (fun w => w.1 == k) := by
        rw [List.filter_append]
        simp [List.filter_cons, hw]
      rw [hfilter, assocSet_find?_other _ _ _ _ (fun hc => hw hc.symm)]
      exact ih ps

/-- Folding a write list starting from a parameter set with at most one
binding of a key keeps at most one binding of that key. -/
theorem assocSetFold_countP (ws : List (String × String)) (k : String) :
    ∀ ps, ps.countP (fun p => p.1 == k) ≤ 1 →
      (assocSetFold ws ps).countP (fun p => p.1 == k) ≤ 1 := by
  induction ws with
  | nil => intro ps h; exact h
  | cons w ws ih =>
    intro ps h
    have hfold : assocSetFold (w :: ws) ps =
        assocSetFold ws (assocSet ps w.1 w.2) := rfl
    rw [hfold]
    apply ih
    by_cases hw : w.1 = k
    · rw [hw]
      exact le_of_eq (assocSet_countP_self ps k w.2)
    · exact le_trans (assocSet_countP_other_le ps w.1 w.2 k (fun hc => hw hc.symm)) h

/-- One query entry as the parameter write it performs, if any: undefined
values are skipped, defined values are stringified. -/
def queryWrite (e : String × Option QueryValue) : Option (String × String) :=
  e.2.map (fun v => (e.1, queryValueToString v))

/-- The Object.entries walk of buildTimeApiUrl is the assocSet fold over
the defined writes. -/
theorem foldl_applyQueryEntry_eq (q : List (String × Option QueryValue)) :
    ∀ ps, q.foldl applyQueryEntry ps = assocSetFold (q.filterMap queryWrite) ps := by
  induction q with
  | nil => intro ps; rfl
  | cons e q ih =>
    intro ps
    cases he : e.2 with
    | none =>
      have h1 : applyQueryEntry ps e = ps := by rw [applyQueryEntry, he]
      have h2 : queryWrite e = none := by rw [queryWrite, he]; rfl
      rw [List.foldl_cons, h1, List.filterMap_cons, h2]
      exact ih ps
    | some v =>
      have h1 : applyQueryEntry ps e = assocSet ps e.1 (queryValueToString v) := by
        rw [applyQueryEntry, he]
      have h2 : queryWrite e = some (e.1, queryValueToString v) := by
        rw [queryWrite, he]; rfl
      rw [List.foldl_cons, h1, List.filterMap_cons, h2]
      exact ih (assocSet ps e.1 (queryValueToString v))

/-- The ordered list of stringified values written to a given query key
(the entries for the key whose value is defined, in order). -/
def definedWrites (q : List (String × Option QueryValue)) (k : String) :
    List String :=
  ((q.filterMap queryWrite).filter (fun w => w.1 == k)).map (fun w => w.2)

/-- C8: in every built URL, a query key holds exactly the stringified
value of its last defined write — keys whose entries are all undefined are
omitted entirely — and no key is ever duplicated in the parameter list. -/
theorem buildTimeApiUrl_query_semantics (path : String)
    (q : List (String × Option QueryValue)) (k : String) :
    ((((buildTimeApiUrl path (some q)).params.find? (fun p => p.1 == k)).map
        (fun p => p.2)) = (definedWrites q k).getLast?)
    ∧ (buildTimeApiUrl path (some q)).params.countP (fun p => p.1 == k) ≤ 1 := by
  have hparams : (buildTimeApiUrl path (some q)).params =
      assocSetFold (q.filterMap queryWrite) [] := foldl_applyQueryEntry_eq q []
  constructor
  · rw [hparams, assocSetFold_find?]
    rcases hlast : (definedWrites q k).getLast? with - | v
    · rw [definedWrites] at hlast
      rw [hlast]
      rfl
    · rw [definedWrites] at hlast
      rw [hlast]
      rfl
  · rw [hparams]
    exact assocSetFold_countP (q.filterMap queryWrite) k [] (by simp)

/-- One record entry as the header write it performs, if any: null and
undefined values are skipped; array values are joined with a comma-space
separator; every other value is stringified.  Header names are lowercased
by Headers.set. -/
def recordWrite (e : String × HeaderValue) : Option (String × String) :=
  match e.2 with
  | .undefined => none
  | .null => none
  | .arr elems => some (lowerName e.1, String.intercalate ", " elems)
  | .str s => some (lowerName e.1, s)
  | .num n => some (lowerName e.1, ratToJsString n)
  | .bool b => some (lowerName e.1, if b then "true" else "false")

/-- The record branch of mergeHeaders is the assocSet fold over its
writes. -/
theorem mergeHeaders_record_eq (r : List (String × HeaderValue)) :
    ∀ base, mergeHeaders base (some (.record r)) =
      assocSetFold (r.filterMap recordWrite) base := by
  induction r with
  | nil => intro base; rfl
  | cons e r ih =>
    intro base
    obtain ⟨name, hv⟩ := e
    cases hv with
    | str s => exact ih (headersSet base name s)
    | num n => exact ih (headersSet base name (ratToJsString n))
    | bool b => exact ih (headersSet base name (if b then "true" else "false"))
    | null => exact ih base
    | undefined => exact ih base
    | arr elems => exact ih (headersSet base name (String.intercalate ", " elems))

/-- The ordered list of header values written to a given lowercased header
name by the record form (skipping null and undefined entries). -/
def recordWrites (r : List (String × HeaderValue)) (k : String) : List String :=
  ((r.filterMap recordWrite).filter (fun w => w.1 == k)).map (fun w => w.2)

/-- C9: merging a record of extra headers skips null and undefined
values, joins array values with a comma-space separator, stringifies the
rest, and overwrites the base by (case-insensitive) name with the last
write winning; the base is returned with at most one binding per written
name kept, and in particular an array value under key X yields the joined
header value. -/
theorem mergeHeaders_record_semantics :
    (∀ (base : List (String × String)) (r : List (String × HeaderValue))
        (name : String),
      headersGet (mergeHeaders base (some (.record r))) name =
        ((recordWrites r (lowerName name)).getLast?).or (headersGet base name))
    ∧ (∀ (base : List (String × String)) (r : List (String × HeaderValue))
        (name : String),
        base.countP (fun p => p.1 == lowerName name) ≤ 1 →
        (mergeHeaders base (some (.record r))).countP
          (fun p => p.1 == lowerName name) ≤ 1)
    ∧ headersGet (mergeHeaders [("accept", "application/json")]
        (some (.record [("X", .arr ["a", "b"])]))) "X" = some "a, b" := by
  refine ⟨?_, ?_, rfl⟩
  · intro base r name
    rw [headersGet, mergeHeaders_record_eq r base, assocSetFold_find?]
    rcases hlast : (recordWrites r (lowerName name)).getLast? with - | v
    · rw [recordWrites] at hlast
      rw [hlast, Option.none_or]
      rfl
    · rw [recordWrites] at hlast
      rw [hlast]
      rfl
  · intro base r name h
    rw [mergeHeaders_record_eq r base]
    exact assocSetFold_countP (r.filterMap recordWrite) (lowerName name) base h

/-- C9, witness: merging the record with the array value under key X into
the default base keeps at most one binding of the written name, and the
lookup returns the comma-joined value. -/
theorem mergeHeaders_record_semantics_witness :
    (([("accept", "application/json")] : List (String × String)).countP
        (fun p => p.1 == lowerName "X") ≤ 1)
    ∧ (mergeHeaders [("accept", "application/json")]
        (some (.record [("X", .arr ["a", "b"])]))).countP
        (fun p => p.1 == lowerName "X") ≤ 1 :=
  ⟨by decide,
   mergeHeaders_record_semantics.2.1 [("accept", "application/json")]
     [("X", .arr ["a", "b"])] "X" (by decide)⟩

/-- Inversion of the error-propagating match of the non-spread handlers on
a successful result. -/
theorem except_match_ok {f : JsValue → Except Failure JsValue}
    {r : Except Failure JsValue} {out : JsValue}
    (h : (match r with
          | .error e => (.error e : Except Failure JsValue)
          | .ok v => f v) = .ok out) :
    ∃ v, r = .ok v ∧ f v = .ok out := by
  cases r with
  | error e => exact absurd h (by simp)
  | ok v => exact ⟨v, rfl, h⟩

/-- Inversion of the error-propagating match of the non-spread handlers on
a failing result. -/
theorem except_match_error {f : JsValue → Except Failure JsValue}
    {r : Except Failure JsValue} {e : Failure}
    (h : (match r with
          | .error e2 => (.error e2 : Except Failure JsValue)
          | .ok v => f v) = .error e) :
    r = .error e ∨ ∃ v, r = .ok v ∧ f v = .error e := by
  cases r with
  | error e2 =>
    refine Or.inl ?_
    have h2 : (Except.error e2 : Except Failure JsValue) = .error e := h
    exact h2
  | ok v => exact Or.inr ⟨v, rfl, h⟩

/-- Inversion of Except.map on a successful result. -/
theorem except_map_ok {f : JsValue → JsValue}
    {r : Except Failure JsValue} {out : JsValue}
    (h : r.map f = .ok out) : ∃ v, r = .ok v ∧ f v = out := by
  cases r with
  | error e => simp [Except.map] at h
  | ok v =>
    simp [Except.map] at h
    exact ⟨v, rfl, h⟩

/-- Inversion of Except.map on a failing result. -/
theorem except_map_error {f : JsValue → JsValue}
    {r : Except Failure JsValue} {e : Failure}
    (h : r.map f = .error e) : r = .error e := by
  cases r with
  | error e2 => simpa [Except.map] using h
  | ok v => simp [Except.map] at h

/-- The output value of a successful handler run (undefined on a failing
run; used only to state concrete observations). -/
def exceptOutput (r : Except Failure JsValue) : JsValue :=
  match r with
  | .ok v => v
  | .error _ => .undefined

/-- A complete sample upstream payload for a current-time lookup. -/
def sampleTimePayload : JsValue :=
  .obj [
    ("year", .num 2025), ("month", .num 10), ("day", .num 11),
    ("hour", .num 1), ("minute", .num 2), ("seconds", .num 3),
    ("milliSeconds", .num 4),
    ("dateTime", .str "2025-10-11T01:02:03"), ("date", .str "10/11/2025"),
    ("time", .str "01:02"), ("timeZone", .str "America/Denver"),
    ("dayOfWeek", .str "Saturday"), ("dstActive", .bool true)]

/-- The components sub-object the current-time handler builds from the
sample payload: seven numeric fields. -/
def sampleTimeComponents : List (String × JsValue) :=
  [("year", .num 2025), ("month", .num 10), ("day", .num 11),
   ("hour", .num 1), ("minute", .num 2), ("seconds", .num 3),
   ("milliSeconds", .num 4)]

/-- C7, counterexample: on a fully numeric decoded payload the
current-time handler succeeds and its components sub-object has SEVEN
numeric fields (year, month, day, hour, minute, seconds, milliSeconds),
not six as claimed. -/
theorem currentTime_components_seven_not_six :
    (currentTimeHandler "America/Denver" (.responded 200 (.ok "x"))
        (fun _ => .ok sampleTimePayload)).isOk = true
    ∧ getProp (exceptOutput (currentTimeHandler "America/Denver"
        (.responded 200 (.ok "x")) (fun _ => .ok sampleTimePayload)))
        "components" = .obj sampleTimeComponents
    ∧ sampleTimeComponents.length = 7
    ∧ ¬ sampleTimeComponents.length = 6 :=
  ⟨rfl, rfl, rfl, by decide⟩

/-- C7 (amended): for input timeZone America/Denver and every fetch
outcome and parse result on which the current-time handler succeeds, the
output has top-level dateTime, date, time, dayOfWeek and dstActive fields
copied from the payload, a nested components object with SEVEN fields
(year, month, day, hour, minute, seconds, milliSeconds — numeric whenever
the payload carries numbers there), a source equal to the constructed
lookup URL, and a timeZone that falls back to the caller-supplied
timezone when the payload omits it or carries null. -/
theorem currentTime_output_shape (o : FetchOutcome)
    (parse : String → Except String JsValue) (out : JsValue)
    (h : currentTimeHandler "America/Denver" o parse = .ok out) :
    ∃ payload, isNullish payload = false ∧
      out = .obj [
        ("timeZone", jsCoalesce (getProp payload "timeZone")
          (jsCoalesce (optToJs (some "America/Denver")) .null)),
        ("dateTime", getProp payload "dateTime"),
        ("date", getProp payload "date"),
        ("time", getProp payload "time"),
        ("components", .obj [
          ("year", getProp payload "year"),
          ("month", getProp payload "month"),
          ("day", getProp payload "day"),
          ("hour", getProp payload "hour"),
          ("minute", getProp payload "minute"),
          ("seconds", getProp payload "seconds"),
          ("milliSeconds", getProp payload "milliSeconds")]),
        ("dayOfWeek", getProp payload "dayOfWeek"),
        ("dstActive", getProp payload "dstActive"),
        ("source",
          .str "https://timeapi.io/api/time/current/zone?timeZone=America%2FDenver")] ∧
      (isNullish (getProp payload "timeZone") = true →
        getProp out "timeZone" = .str "America/Denver") := by
  obtain ⟨payload, hreq, hcreate⟩ := except_match_ok h
  by_cases hnull : isNullish payload
  · rw [createTimeResponse, if_pos hnull] at hcreate
    exact absurd hcreate (by simp)
  · rw [createTimeResponse, if_neg hnull] at hcreate
    have hout := (Except.ok.inj hcreate).symm
    refine ⟨payload, by simpa using hnull, ?_, ?_⟩
    · rw [hout]
      norm_num [urlToString]
      rfl
    · intro htz
      rw [hout]
      show jsCoalesce (getProp payload "timeZone")
        (jsCoalesce (optToJs (some "America/Denver")) .null) = .str "America/Denver"
      rw [jsCoalesce, if_pos htz]
      rfl

/-- C7, witness: the shape theorem applied to a concrete successful run on
the sample payload. -/
theorem currentTime_output_shape_witness :
    ∃ payload, isNullish payload = false ∧
      exceptOutput (currentTimeHandler "America/Denver"
        (.responded 200 (.ok "x")) (fun _ => .ok sampleTimePayload)) = .obj [
        ("timeZone", jsCoalesce (getProp payload "timeZone")
          (jsCoalesce (optToJs (some "America/Denver")) .null)),
        ("dateTime", getProp payload "dateTime"),
        ("date", getProp payload "date"),
        ("time", getProp payload "time"),
        ("components", .obj [
          ("year", getProp payload "year"),
          ("month", getProp payload "month"),
          ("day", getProp payload "day"),
          ("hour", getProp payload "hour"),
          ("minute", getProp payload "minute"),
          ("seconds", getProp payload "seconds"),
          ("milliSeconds", getProp payload "milliSeconds")]),
        ("dayOfWeek", getProp payload "dayOfWeek"),
        ("dstActive", getProp payload "dstActive"),
        ("source",
          .str "https://timeapi.io/api/time/current/zone?timeZone=America%2FDenver")] ∧
      (isNullish (getProp payload "timeZone") = true →
        getProp (exceptOutput (currentTimeHandler "America/Denver"
          (.responded 200 (.ok "x")) (fun _ => .ok sampleTimePayload)))
          "timeZone" = .str "America/Denver") :=
  currentTime_output_shape (.responded 200 (.ok "x"))
    (fun _ => .ok sampleTimePayload)
    (exceptOutput (currentTimeHandler "America/Denver"
      (.responded 200 (.ok "x")) (fun _ => .ok sampleTimePayload))) rfl

/-- Branch characterization of the JSON pipeline on an obtained response
with a successfully read body. -/
theorem requestTimeApiJson_responded_ok_cases (label : String) (st : Nat)
    (b : String) (parse : String → Except String JsValue) :
    (responseOk st = false →
      requestTimeApiJson label (.responded st (.ok b)) parse =
        .error (.httpStatusFailure
          ("[" ++ label ++ "] timeapi.io responded with " ++ toString st ++ ": " ++
            (if b == "" then "<empty response body>"
             else truncateBodyPreview b 500))))
    ∧ (responseOk st = true → jsTrim b = "" →
        requestTimeApiJson label (.responded st (.ok b)) parse =
          .error (.emptyBodyFailure
            ("[" ++ label ++ "] expected JSON body but received an empty response")))
    ∧ (responseOk st = true → ∀ reason, jsTrim b ≠ "" →
        parse (jsTrim b) = .error reason →
        requestTimeApiJson label (.responded st (.ok b)) parse =
          .error (.jsonParseFailure
            ("[" ++ label ++ "] failed to parse JSON: " ++ reason ++
              ". Response body: " ++ truncateBodyPreview b 500)))
    ∧ (responseOk st = true → ∀ v, jsTrim b ≠ "" → parse (jsTrim b) = .ok v →
        requestTimeApiJson label (.responded st (.ok b)) parse = .ok v) := by
  refine ⟨?_, ?_, ?_, ?_⟩
  · intro hok
    simp [requestTimeApiJson, performTimeApiRequest, hok]
  · intro hok htrim
    simp [requestTimeApiJson, performTimeApiRequest, hok, htrim]
  · intro hok reason htrim hp
    simp [requestTimeApiJson, performTimeApiRequest, hok, htrim, hp]
  · intro hok v htrim hp
    simp [requestTimeApiJson, performTimeApiRequest, hok, htrim, hp]

/-- With a readable body, every failure of the JSON pipeline is one of the
classified kinds. -/
theorem requestTimeApiJson_error_classified (label : String) (o : FetchOutcome)
    (parse : String → Except String JsValue) (f : Failure)
    (hbr : BodyReadOk o)
    (h : requestTimeApiJson label o parse = .error f) :
    f.isClassified = true := by
  cases o with
  | failed r =>
    have h2 : (Except.error (Failure.networkFailure
        ("[" ++ label ++ "] network request failed: " ++ r)) :
        Except Failure JsValue) = .error f := h
    rw [← Except.error.inj h2]
    rfl
  | responded st br =>
    cases br with
    | error e => exact absurd rfl (hbr st e)
    | ok b =>
      obtain ⟨h1, h2, h3, h4⟩ := requestTimeApiJson_responded_ok_cases label st b parse
      cases hok : responseOk st with
      | false =>
        have := (h1 hok).symm.trans h
        rw [← Except.error.inj this]
        rfl
      | true =>
        by_cases htrim : jsTrim b = ""
        · have := (h2 hok htrim).symm.trans h
          rw [← Except.error.inj this]
          rfl
        · cases hp : parse (jsTrim b) with
          | error reason =>
            have := (h3 hok reason htrim hp).symm.trans h
            rw [← Except.error.inj this]
            rfl
          | ok v =>
            have := (h4 hok v htrim hp).symm.trans h
            exact absurd this (by simp)

/-- A successful JSON-pipeline result is a value the parser produced. -/
theorem requestTimeApiJson_ok_parse (label : String) (o : FetchOutcome)
    (parse : String → Except String JsValue) (v : JsValue)
    (h : requestTimeApiJson label o parse = .ok v) :
    ∃ s, parse s = .ok v := by
  cases o with
  | failed r =>
    have h2 : (Except.error (Failure.networkFailure
        ("[" ++ label ++ "] network request failed: " ++ r)) :
        Except Failure JsValue) = .ok v := h
    exact absurd h2 (by simp)
  | responded st br =>
    cases br with
    | error e =>
      have h2 : (Except.error (Failure.unhandled e) : Except Failure JsValue) = .ok v := h
      exact absurd h2 (by simp)
    | ok b =>
      obtain ⟨h1, h2, h3, h4⟩ := requestTimeApiJson_responded_ok_cases label st b parse
      cases hok : responseOk st with
      | false => exact absurd ((h1 hok).symm.trans h) (by simp)
      | true =>
        by_cases htrim : jsTrim b = ""
        · exact absurd ((h2 hok htrim).symm.trans h) (by simp)
        · cases hp : parse (jsTrim b) with
          | error reason => exact absurd ((h3 hok reason htrim hp).symm.trans h) (by simp)
          | ok w =>
            refine ⟨jsTrim b, ?_⟩
            rw [hp, Except.ok.inj ((h4 hok w htrim hp).symm.trans h)]

/-- The source field of an output object whose last property is source. -/
theorem getProp_obj_source_last (fields : List (String × JsValue)) (v : JsValue) :
    getProp (JsValue.obj (fields ++ [("source", v)])) "source" = v := by
  simp only [getProp, List.reverse_append, List.reverse_cons, List.reverse_nil,
    List.nil_append, List.cons_append, List.find?_cons]
  simp

/-- The source field of a spread-style handler output. -/
theorem getProp_spreadOutput (urlStr : String) (v : JsValue) :
    getProp (spreadOutput urlStr v) "source" = .str urlStr :=
  getProp_obj_source_last (jsSpread v) (.str urlStr)

/-- The source field of the day-of-year normalization, in every branch. -/
theorem getProp_dayOfYearNormalize_source (urlStr : String) (v : JsValue) :
    getProp (dayOfYearNormalize urlStr v) "source" = .str urlStr := by
  cases v <;>
    first
    | rfl
    | (simp only [dayOfYearNormalize]
       split <;> rfl)

/-- A successful createTimeResponse records the invoked URL under
source. -/
theorem createTimeResponse_ok_source (payload : JsValue) (url : TimeUrl)
    (fb : Option String) (out : JsValue)
    (h : createTimeResponse payload url fb = .ok out) :
    getProp out "source" = .str (urlToString url) := by
  by_cases hnull : isNullish payload
  · rw [createTimeResponse, if_pos hnull] at h
    exact absurd h (by simp)
  · rw [createTimeResponse, if_neg hnull] at h
    rw [← Except.ok.inj h]
    rfl

/-- A non-nullish payload makes createTimeResponse succeed. -/
theorem createTimeResponse_nonnull_ok (payload : JsValue) (url : TimeUrl)
    (fb : Option String) (h : isNullish payload = false) :
    ∃ out, createTimeResponse payload url fb = .ok out :=
  ⟨_, by rw [createTimeResponse, if_neg (by simp [h])]⟩

/-- C5 (amended): for every entrypoint, every successful output records
the exact invoked URL under source; every invocation yields exactly one of
a success or a raised error; and whenever the response body was read
successfully and the decoded payload is never null/undefined, every raised
error is one of the four classified failure kinds.  (An unreadable body or
a null payload can instead surface an unclassified propagated error.) -/
theorem entrypoint_source_and_failure_classification
    (inv : Invocation) (o : FetchOutcome)
    (parse : String → Except String JsValue) :
    (∀ out, runInvocation inv o parse = Except.ok out →
      getProp out "source" = JsValue.str (urlToString (invocationUrl inv)))
    ∧ ((∃ out, runInvocation inv o parse = Except.ok out)
        ∨ (∃ f, runInvocation inv o parse = Except.error f))
    ∧ (∀ f, runInvocation inv o parse = Except.error f →
        BodyReadOk o → NonNullParse parse → f.isClassified = true) := by
  refine ⟨?_, ?_, ?_⟩
  · intro out hout
    cases inv with
    | currentTime tz =>
      obtain ⟨payload, -, hc⟩ := except_match_ok hout
      exact createTimeResponse_ok_source payload _ (some tz) out hc
    | currentTimeByCoordinate lat lon =>
      obtain ⟨payload, -, hc⟩ := except_match_ok hout
      exact createTimeResponse_ok_source payload _ none out hc
    | currentTimeByIp ip =>
      obtain ⟨payload, -, hc⟩ := except_match_ok hout
      exact createTimeResponse_ok_source payload _ none out hc
    | availableTimezones =>
      obtain ⟨payload, -, hc⟩ := except_match_ok hout
      by_cases hnull : isNullish payload
      · rw [if_pos hnull] at hc
        exact absurd hc (by simp)
      · rw [if_neg hnull] at hc
        rw [← Except.ok.inj hc]
        rfl
    | timezoneInfo tz =>
      obtain ⟨v, -, hv⟩ := except_map_ok hout
      rw [← hv]
      exact getProp_spreadOutput _ v
    | timezoneInfoByCoordinate lat lon =>
      obtain ⟨v, -, hv⟩ := except_map_ok hout
      rw [← hv]
      exact getProp_spreadOutput _ v
    | timezoneInfoByIp ip =>
      obtain ⟨v, -, hv⟩ := except_map_ok hout
      rw [← hv]
      exact getProp_spreadOutput _ v
    | convertTimezone a b c d =>
      obtain ⟨v, -, hv⟩ := except_map_ok hout
      rw [← hv]
      exact getProp_spreadOutput _ v
    | translateDatetime a b =>
      obtain ⟨v, -, hv⟩ := except_map_ok hout
      rw [← hv]
      exact getProp_spreadOutput _ v
    | dayOfWeek d =>
      obtain ⟨v, -, hv⟩ := except_map_ok hout
      rw [← hv]
      exact getProp_spreadOutput _ v
    | dayOfYear d =>
      obtain ⟨v, -, hv⟩ := except_map_ok hout
      rw [← hv]
      exact getProp_dayOfYearNormalize_source _ v
    | incrementCurrentTime a b =>
      obtain ⟨v, -, hv⟩ := except_map_ok hout
      rw [← hv]
      exact getProp_spreadOutput _ v
    | decrementCurrentTime a b =>
      obtain ⟨v, -, hv⟩ := except_map_ok hout
      rw [← hv]
      exact getProp_spreadOutput _ v
    | incrementCustomTime a b c d =>
      obtain ⟨v, -, hv⟩ := except_map_ok hout
      rw [← hv]
      exact getProp_spreadOutput _ v
    | decrementCustomTime a b c d =>
      obtain ⟨v, -, hv⟩ := except_map_ok hout
      rw [← hv]
      exact getProp_spreadOutput _ v
    | healthCheck =>
      cases o with
      | failed r => exact absurd hout (by simp [runInvocation, healthCheckHandler, performTimeApiRequest])
      | responded st br =>
        cases br with
        | error e => exact absurd hout (by simp [runInvocation, healthCheckHandler, performTimeApiRequest])
        | ok b =>
          have h2 : healthCheckHandler (.responded st (.ok b)) = .ok out := hout
          simp only [healthCheckHandler, performTimeApiRequest] at h2
          cases hok : responseOk st with
          | false =>
            rw [hok] at h2
            simp at h2
          | true =>
            rw [hok] at h2
            simp only [Bool.not_true, Bool.false_eq_true, if_false] at h2
            rw [← Except.ok.inj h2]
            rfl
  · cases hr : runInvocation inv o parse with
    | ok v => exact Or.inl ⟨v, rfl⟩
    | error f => exact Or.inr ⟨f, rfl⟩
  · intro f hf hbr hnn
    cases inv with
    | currentTime tz =>
      rcases except_match_error hf with hpipe | ⟨v, hpipe, hc⟩
      · exact requestTimeApiJson_error_classified _ o parse f hbr hpipe
      · obtain ⟨s, hs⟩ := requestTimeApiJson_ok_parse _ o parse v hpipe
        obtain ⟨out2, hok2⟩ := createTimeResponse_nonnull_ok v _ (some tz) (hnn s v hs)
        rw [hok2] at hc
        exact absurd hc (by simp)
    | currentTimeByCoordinate lat lon =>
      rcases except_match_error hf with hpipe | ⟨v, hpipe, hc⟩
      · exact requestTimeApiJson_error_classified _ o parse f hbr hpipe
      · obtain ⟨s, hs⟩ := requestTimeApiJson_ok_parse _ o parse v hpipe
        obtain ⟨out2, hok2⟩ := createTimeResponse_nonnull_ok v _ none (hnn s v hs)
        rw [hok2] at hc
        exact absurd hc (by simp)
    | currentTimeByIp ip =>
      rcases except_match_error hf with hpipe | ⟨v, hpipe, hc⟩
      · exact requestTimeApiJson_error_classified _ o parse f hbr hpipe
      · obtain ⟨s, hs⟩ := requestTimeApiJson_ok_parse _ o parse v hpipe
        obtain ⟨out2, hok2⟩ := createTimeResponse_nonnull_ok v _ none (hnn s v hs)
        rw [hok2] at hc
        exact absurd hc (by simp)
    | availableTimezones =>
      rcases except_match_error hf with hpipe | ⟨v, hpipe, hc⟩
      · exact requestTimeApiJson_error_classified _ o parse f hbr hpipe
      · obtain ⟨s, hs⟩ := requestTimeApiJson_ok_parse _ o parse v hpipe
        rw [if_neg (by simp [hnn s v hs])] at hc
        exact absurd hc (by simp)
    | timezoneInfo tz =>
      exact requestTimeApiJson_error_classified _ o parse f hbr (except_map_error hf)
    | timezoneInfoByCoordinate lat lon =>
      exact requestTimeApiJson_error_classified _ o parse f hbr (except_map_error hf)
    | timezoneInfoByIp ip =>
      exact requestTimeApiJson_error_classified _ o parse f hbr (except_map_error hf)
    | convertTimezone a b c d =>
      exact requestTimeApiJson_error_classified _ o parse f hbr (except_map_error hf)
    | translateDatetime a b =>
      exact requestTimeApiJson_error_classified _ o parse f hbr (except_map_error hf)
    | dayOfWeek d =>
      exact requestTimeApiJson_error_classified _ o parse f hbr (except_map_error hf)
    | dayOfYear d =>
      exact requestTimeApiJson_error_classified _ o parse f hbr (except_map_error hf)
    | incrementCurrentTime a b =>
      exact requestTimeApiJson_error_classified _ o parse f hbr (except_map_error hf)
    | decrementCurrentTime a b =>
      exact requestTimeApiJson_error_classified _ o parse f hbr (except_map_error hf)
    | incrementCustomTime a b c d =>
      exact requestTimeApiJson_error_classified _ o parse f hbr (except_map_error hf)
    | decrementCustomTime a b c d =>
      exact requestTimeApiJson_error_classified _ o parse f hbr (except_map_error hf)
    | healthCheck =>
      cases o with
      | failed r =>
        have h2 : (Except.error (Failure.networkFailure
            ("[health-check] network request failed: " ++ r)) :
            Except Failure JsValue) = .error f := hf
        rw [← Except.error.inj h2]
        rfl
      | responded st br =>
        cases br with
        | error e => exact absurd rfl (hbr st e)
        | ok b =>
          have h2 : healthCheckHandler (.responded st (.ok b)) = .error f := hf
          simp only [healthCheckHandler, performTimeApiRequest] at h2
          cases hok : responseOk st with
          | false =>
            rw [hok] at h2
            simp only [Bool.not_false, if_pos] at h2
            rw [← Except.error.inj h2]
            rfl
          | true =>
            rw [hok] at h2
            simp at h2

/-- An obtained response with a successfully read body satisfies
BodyReadOk. -/
theorem bodyReadOk_of_read_ok (st : Nat) (b : String) :
    BodyReadOk (.responded st (.ok b)) := by
  intro st2 e h
  injection h with h1 h2
  exact Except.noConfusion h2

/-- The constant non-null parser used as a concrete NonNullParse
instance. -/
theorem nonNullParse_const_bool :
    NonNullParse (fun _ => Except.ok (JsValue.bool true)) := by
  intro s v h
  cases h
  rfl

/-- C5, counterexample: a 200 response whose body is the valid JSON text
null makes the current-time invocation raise an uncaught TypeError — the
invocation produces neither an output record nor one of the classified
failure kinds. -/
theorem currentTime_null_payload_unclassified :
    jsonParse "null" = .ok JsValue.null
    ∧ runInvocation (.currentTime "America/Denver")
        (.responded 200 (.ok "null")) jsonParse =
      .error (.typeError "Cannot read properties of null or undefined")
    ∧ Failure.isClassified
        (.typeError "Cannot read properties of null or undefined") = false :=
  ⟨rfl, rfl, rfl⟩

/-- C5, witness: the classification conjunct at a concrete failing
invocation — a 500 status on day-of-week yields a classified
HTTP-status failure. -/
theorem entrypoint_source_and_failure_classification_witness :
    runInvocation (.dayOfWeek "2025-01-01") (.responded 500 (.ok "oops"))
        (fun _ => Except.ok (JsValue.bool true)) =
      .error (.httpStatusFailure
        "[day-of-week] timeapi.io responded with 500: oops")
    ∧ Failure.isClassified
        (.httpStatusFailure
          "[day-of-week] timeapi.io responded with 500: oops") = true :=
  ⟨rfl,
   (entrypoint_source_and_failure_classification (.dayOfWeek "2025-01-01")
       (.responded 500 (.ok "oops")) (fun _ => Except.ok (JsValue.bool true))).2.2
     _ rfl (bodyReadOk_of_read_ok 500 "oops") nonNullParse_const_bool⟩
